import Mathlib

/-!
# Verification of liblw `BasicStream` (src/source/lw/event/BasicStream.cpp)

Shallow embedding of the stream read/write protocol and its buffer pool.

Modelling conventions:

* The external reactor (libuv) is a black box.  Every reactor call that
  returns a status (`uv_read_stop`, `uv_write`, `uv_read_start`) is modelled
  by passing that status code in as an `Int` parameter; the reactor-driven
  callbacks (allocation callback, data-ready callback, write-completion
  callback) are modelled as explicit state-transition functions that the
  environment may invoke.
* Heap addresses of `memory::Buffer` backing storage are modelled as natural
  number identities (`Buffer.id`); `next_buffer_id` in the stream state is
  the fresh-address supply (no buffer is ever freed by this code, so a
  monotone counter models address freshness exactly).
* `std::size_t` arithmetic (`read_count += size` with `size : long int`)
  is modelled on `Nat` with an explicit reduction modulo `2 ^ 64`.
* C++ `throw` is modelled by returning the post-mutation state paired with
  `Option StreamError` (mutations performed before the throw persist).
-/

/-- Error type: `LW_UV_ERROR(StreamError, status)` builds a stream error from
the reactor status code. -/
structure StreamError where
  code : Int
deriving DecidableEq, Repr

/-- Modelled from the spec: the Promise/Future engine lives in
`lw/event/Promise.hpp` / `Promise.impl.hpp`, which are not under `src/`.
Per spec §3/§4.1 a Promise is a shared single-resolution slot: it starts
`pending`, transitions exactly once to `resolved(value)` or
`rejected(error)`, and `reset()` returns it to `pending`.  The value type
here is `Nat`, mirroring `Promise<std::size_t>` used by the stream. -/
inductive Promise where
  | pending : Promise
  | resolved : Nat → Promise
  | rejected : StreamError → Promise
deriving DecidableEq, Repr

/-- Modelled from the spec (§4.1): `resolve` transitions a pending slot to
`resolved`; resolving a non-pending slot without an intervening `reset` is a
no-op at the slot level (spec: "no-ops or ... programmer error"). -/
def Promise.resolve : Promise → Nat → Promise
  | .pending, v => .resolved v
  | p, _ => p

/-- Modelled from the spec (§4.1): `reject` transitions a pending slot to
`rejected`. -/
def Promise.reject : Promise → StreamError → Promise
  | .pending, e => .rejected e
  | p, _ => p

/-- Modelled from the spec (§4.1): `reset()` returns the slot to pending,
discarding any buffered result. -/
def Promise.reset : Promise → Promise
  | _ => .pending

/-- Modelled from the spec (§4.1): the result of `future.then(f)` for a
continuation `f : Nat → Nat` — the chained Future resolves with `f v` when
the source resolves with `v`; rejection short-circuits the chain. -/
def Promise.thenMap : Promise → (Nat → Nat) → Promise
  | .pending, _ => .pending
  | .resolved v, f => .resolved (f v)
  | .rejected e, _ => .rejected e

/-- A `memory::Buffer`: fixed-capacity heap byte region.  `id` models the
address of its backing storage (`data()`), `size` its capacity
(`Buffer(1024)` allocates with capacity 1024). -/
structure Buffer where
  id : Nat
  size : Nat
deriving DecidableEq, Repr

/-- The stream state `BasicStream::_State`.  Its field declarations live in
`lw/event/BasicStream.hpp` (not under `src/`); the fields below are the ones
`BasicStream.cpp` reads and writes, with types per spec §3 (`read_count` is
the accumulated-byte counter, a `std::size_t`; `read_callback` the per-chunk
delivery function, modelled by whether one is registered; `read_promise` a
`Promise<std::size_t>`; the buffer pool is the two `std::list<Buffer>`
collections).  The raw `uv_stream_t* handle` is omitted: all interaction
with it goes through reactor status codes passed in explicitly.

Two ghost trace fields record externally observable events:
`read_resolutions` is the list of values the read promise has been resolved
with (each a delivery to the read Future), and `chunks_delivered` the list
of chunk sizes handed to `read_callback`. -/
structure StreamState where
  read_count : Nat
  read_callback : Bool
  read_promise : Promise
  idle_read_buffers : List Buffer
  active_read_buffers : List Buffer
  next_buffer_id : Nat
  read_resolutions : List Nat
  chunks_delivered : List Int
deriving DecidableEq, Repr

namespace BasicStream

/-- `BasicStream::_stop_read` (BasicStream.cpp lines 144-148): resolve the
read promise with `read_count`, reset the promise, zero the counter.  The
ghost `read_resolutions` trace records the delivered value when the promise
was actually pending (a resolve on a non-pending slot delivers nothing). -/
def _stop_read (s : StreamState) : StreamState :=
  { s with
    read_promise := (s.read_promise.resolve s.read_count).reset
    read_count := 0
    read_resolutions :=
      s.read_resolutions ++
        (if s.read_promise = .pending then [s.read_count] else []) }

/-- `BasicStream::stop_read` (lines 52-59).  `res` is the status returned by
`uv_read_stop` (the propagated reactor stop request).  The callback is
cleared before the status check, so it is cleared even when the function
throws; the mutated state is returned alongside the thrown error. -/
def stop_read (res : Int) (s : StreamState) : StreamState × Option StreamError :=
  let s1 : StreamState := { s with read_callback := false }
  if res < 0 then
    (s1, some ⟨res⟩)
  else
    (_stop_read s1, none)

/-- A `_details::WriteRequest` (lines 12-20): a promise for the byte count
plus the size recorded at submission time. -/
structure WriteRequest where
  request_size : Nat
  promise : Promise
deriving DecidableEq, Repr

/-- `BasicStream::write` (lines 63-94), submission half.  `bufferSize` is
`buffer->size()` at call time, `res` the status `uv_write` returns.  A
negative submission status throws before any Future is returned; otherwise
the pending write request is created with `size = buffer->size()`. -/
def write (bufferSize : Nat) (res : Int) : Except StreamError WriteRequest :=
  if res < 0 then
    .error ⟨res⟩
  else
    .ok { request_size := bufferSize, promise := .pending }

/-- The write-completion callback passed to `uv_write` (lines 72-81):
negative status rejects the request promise with a `StreamError`, otherwise
the promise resolves with the recorded size. -/
def writeCallback (req : WriteRequest) (status : Int) : Promise :=
  if status < 0 then
    req.promise.reject ⟨status⟩
  else
    req.promise.resolve req.request_size

/-- The continuation chained onto the write future (lines 90-92): a
pass-through that exists only to keep the request and buffer alive. -/
def writeContinuation (bytes_written : Nat) : Nat :=
  bytes_written

/-- The Future `write` returns: the request promise's future with the
pass-through continuation chained on (line 89-93). -/
def writeFuture (p : Promise) : Promise :=
  p.thenMap writeContinuation

/-- `UV_EOF` from libuv (`uv/errno.h`: `UV__EOF (-4095)`). -/
def UV_EOF : Int := -4095

/-- The data-ready callback registered by `_read` (lines 107-131).  `size`
is the `long int` chunk size or status.  Only `size == UV_EOF` triggers the
stop path; every other value — including negative error statuses — takes
the data path: `read_count += size` (with `std::size_t` wraparound) and
`read_callback` is invoked with a fresh Buffer view of that size (recorded
in the ghost `chunks_delivered` trace; the view's destruction later calls
`_release_read_buffer`, modelled separately). -/
def readDataCallback (size : Int) (s : StreamState) : StreamState :=
  if size = UV_EOF then
    _stop_read s
  else
    { s with
      read_count := (((s.read_count : Int) + size) % (2 ^ 64)).toNat
      chunks_delivered := s.chunks_delivered ++ [size] }

/-- A sequence of data-ready callback invocations, in arrival order. -/
def runDataCallbacks (s : StreamState) (sizes : List Int) : StreamState :=
  sizes.foldl (fun t sz => readDataCallback sz t) s

/-- `BasicStream::_read` (lines 98-140), the part executed on the caller's
stack: `res` is the status `uv_read_start` returns.  On negative status the
callback is cleared and a `StreamError` is thrown; otherwise the read
promise's future is returned (the registered callbacks are `readAllocCallback`
and `readDataCallback` above). -/
def _read (res : Int) (s : StreamState) : StreamState × Except StreamError Promise :=
  if res < 0 then
    ({ s with read_callback := false }, .error ⟨res⟩)
  else
    (s, .ok s.read_promise)

/-- `BasicStream::_next_read_buffer` (lines 152-162): if `idle` is empty,
a new 1024-byte Buffer is emplaced at its back (fresh address
`next_buffer_id`); then the front of `idle` is spliced to the back of
`active`, and that buffer (`active.back()`) is returned. -/
def _next_read_buffer (s : StreamState) : StreamState × Buffer :=
  match s.idle_read_buffers with
  | [] =>
    let b : Buffer := { id := s.next_buffer_id, size := 1024 }
    ({ s with
        idle_read_buffers := []
        active_read_buffers := s.active_read_buffers ++ [b]
        next_buffer_id := s.next_buffer_id + 1 }, b)
  | b :: rest =>
    ({ s with
        idle_read_buffers := rest
        active_read_buffers := s.active_read_buffers ++ [b] }, b)

/-- The scan inside `_release_read_buffer` (lines 167-180): walk `active`
front to back looking for the first buffer whose `data()` equals `base`;
on a hit return the remaining list and the found buffer, else `none`. -/
def releaseScan (base : Nat) : List Buffer → Option (List Buffer × Buffer)
  | [] => none
  | b :: rest =>
    if b.id = base then
      some (rest, b)
    else
      match releaseScan base rest with
      | none => none
      | some (rest2, found) => some (b :: rest2, found)

/-- `BasicStream::_release_read_buffer` (lines 166-181): the first active
buffer whose address matches `base` is spliced to the back of `idle`; when
no buffer matches, nothing is moved. -/
def _release_read_buffer (s : StreamState) (base : Nat) : StreamState :=
  match releaseScan base s.active_read_buffers with
  | none => s
  | some (restActive, b) =>
    { s with
      active_read_buffers := restActive
      idle_read_buffers := s.idle_read_buffers ++ [b] }

end BasicStream

/-- A buffer-pool operation: `acquire` is the allocation callback's call to
`_next_read_buffer`; `release base` is the chunk view's deleter calling
`_release_read_buffer(base)`. -/
inductive PoolOp where
  | acquire : PoolOp
  | release : Nat → PoolOp
deriving DecidableEq, Repr

/-- Apply one pool operation to the stream state. -/
def applyPoolOp (s : StreamState) : PoolOp → StreamState
  | .acquire => (BasicStream._next_read_buffer s).1
  | .release base => BasicStream._release_read_buffer s base

/-- Apply a sequence of pool operations. -/
def runPoolOps (s : StreamState) (ops : List PoolOp) : StreamState :=
  ops.foldl applyPoolOp s

/-- The addresses of every buffer the pool owns, idle first then active:
each buffer lives in exactly one of the two collections exactly when this
list has no duplicate. -/
def poolIds (s : StreamState) : List Nat :=
  (s.idle_read_buffers ++ s.active_read_buffers).map fun b => b.id

/-- Pool well-formedness: no buffer address occurs twice across the two
collections (every Buffer is in exactly one of {idle, active}), and every
owned address is below the fresh-address supply. -/
def poolWF (s : StreamState) : Prop :=
  (poolIds s).Nodup ∧ ∀ i ∈ poolIds s, i < s.next_buffer_id

instance (s : StreamState) : Decidable (poolWF s) := by
  unfold poolWF
  infer_instance

/-! ## Helper lemmas -/

/-- A positive chunk whose accumulated count stays below `2 ^ 64` takes the
data path with plain (non-wrapping) addition. -/
theorem readDataCallback_pos (s : StreamState) (x : Int) (hx : 0 < x)
    (hb : (s.read_count : Int) + x < 2 ^ 64) :
    BasicStream.readDataCallback x s =
      { s with
        read_count := s.read_count + x.toNat
        chunks_delivered := s.chunks_delivered ++ [x] } := by
  have hne : x ≠ BasicStream.UV_EOF := by
    intro h
    rw [h] at hx
    norm_num [BasicStream.UV_EOF] at hx
  have h0 : (0 : Int) ≤ (s.read_count : Int) + x := by positivity
  unfold BasicStream.readDataCallback
  rw [if_neg hne, Int.emod_eq_of_lt h0 hb,
    Int.toNat_add (Int.natCast_nonneg _) hx.le, Int.toNat_natCast]

/-- Running a batch of positive chunks whose total stays below `2 ^ 64`
adds their sum to `read_count`, delivers them in order, and touches no
other field. -/
theorem runDataCallbacks_accum (sizes : List Int) (s : StreamState)
    (hpos : ∀ x ∈ sizes, 0 < x)
    (hbound : (s.read_count : Int) + sizes.sum < 2 ^ 64) :
    BasicStream.runDataCallbacks s sizes =
      { s with
        read_count := s.read_count + sizes.sum.toNat
        chunks_delivered := s.chunks_delivered ++ sizes } := by
  induction sizes generalizing s with
  | nil =>
    simp [BasicStream.runDataCallbacks]
  | cons x rest ih =>
    have hx : 0 < x := hpos x (List.mem_cons_self x rest)
    have hrest : ∀ y ∈ rest, 0 < y := fun y hy => hpos y (List.mem_cons_of_mem x hy)
    have hsum : 0 ≤ rest.sum := List.sum_nonneg fun y hy => (hrest y hy).le
    have hb1 : (s.read_count : Int) + x < 2 ^ 64 := by
      rw [List.sum_cons] at hbound
      linarith
    have step := readDataCallback_pos s x hx hb1
    unfold BasicStream.runDataCallbacks at ih ⊢
    rw [List.foldl_cons]
    rw [step, ih _ hrest]
    · simp [List.sum_cons, Int.toNat_add hx.le hsum, List.append_assoc, Nat.add_assoc]
    · rw [List.sum_cons] at hbound
      push_cast
      rw [Int.toNat_of_nonneg hx.le]
      linarith

/-- When no active buffer matches the address, the scan finds nothing. -/
theorem releaseScan_eq_none (base : Nat) :
    ∀ l : List Buffer, base ∉ l.map (fun b => b.id) →
      BasicStream.releaseScan base l = none := by
  intro l
  induction l with
  | nil =>
    intro _
    rfl
  | cons c cs ih =>
    intro hmem
    have hc : ¬ c.id = base := by
      intro h
      exact hmem (by simp [h])
    have hcs : base ∉ cs.map (fun b => b.id) := by
      intro h
      exact hmem (by simp [List.mem_map] at h ⊢; tauto)
    unfold BasicStream.releaseScan
    rw [if_neg hc, ih hcs]

/-- A successful scan returns a buffer with the looked-up address together
with a list that, with that buffer put back, is a permutation of the
input. -/
theorem releaseScan_perm (base : Nat) :
    ∀ (l rest : List Buffer) (b : Buffer),
      BasicStream.releaseScan base l = some (rest, b) →
      l.Perm (b :: rest) ∧ b.id = base := by
  intro l
  induction l with
  | nil =>
    intro rest b h
    exact absurd h (by simp [BasicStream.releaseScan])
  | cons c cs ih =>
    intro rest b h
    unfold BasicStream.releaseScan at h
    by_cases hc : c.id = base
    · rw [if_pos hc] at h
      simp only [Option.some.injEq, Prod.mk.injEq] at h
      obtain ⟨h1, h2⟩ := h
      subst h1
      subst h2
      exact ⟨List.Perm.refl _, hc⟩
    · rw [if_neg hc] at h
      cases hrec : BasicStream.releaseScan base cs with
      | none =>
        rw [hrec] at h
        cases h
      | some p =>
        obtain ⟨cs2, found⟩ := p
        rw [hrec] at h
        simp only [Option.some.injEq, Prod.mk.injEq] at h
        obtain ⟨h1, h2⟩ := h
        subst h1
        subst h2
        obtain ⟨hperm, hid⟩ := ih cs2 found hrec
        exact ⟨(hperm.cons c).trans (List.Perm.swap found c cs2), hid⟩

/-- Releasing an address held by no active buffer changes nothing at all. -/
theorem release_no_match (s : StreamState) (base : Nat)
    (h : base ∉ s.active_read_buffers.map fun b => b.id) :
    BasicStream._release_read_buffer s base = s := by
  unfold BasicStream._release_read_buffer
  rw [releaseScan_eq_none base _ h]

/-- Acquiring from an empty idle list allocates a fresh 1024-byte buffer at
the back of the active list. -/
theorem next_read_buffer_nil (s : StreamState) (h : s.idle_read_buffers = []) :
    BasicStream._next_read_buffer s =
      ({ s with
          idle_read_buffers := []
          active_read_buffers :=
            s.active_read_buffers ++ [{ id := s.next_buffer_id, size := 1024 }]
          next_buffer_id := s.next_buffer_id + 1 },
        { id := s.next_buffer_id, size := 1024 }) := by
  unfold BasicStream._next_read_buffer
  rw [h]

/-- Acquiring with a non-empty idle list moves its front to the back of the
active list. -/
theorem next_read_buffer_cons (s : StreamState) (b : Buffer) (rest : List Buffer)
    (h : s.idle_read_buffers = b :: rest) :
    BasicStream._next_read_buffer s =
      ({ s with
          idle_read_buffers := rest
          active_read_buffers := s.active_read_buffers ++ [b] }, b) := by
  unfold BasicStream._next_read_buffer
  rw [h]

/-- Releasing a matched address splices exactly the found buffer from the
active list to the back of the idle list. -/
theorem release_match (s : StreamState) (base : Nat) (restActive : List Buffer)
    (b : Buffer)
    (h : BasicStream.releaseScan base s.active_read_buffers = some (restActive, b)) :
    BasicStream._release_read_buffer s base =
      { s with
        active_read_buffers := restActive
        idle_read_buffers := s.idle_read_buffers ++ [b] } := by
  unfold BasicStream._release_read_buffer
  rw [h]

/-- One pool operation preserves pool well-formedness. -/
theorem poolWF_applyPoolOp (s : StreamState) (op : PoolOp) (h : poolWF s) :
    poolWF (applyPoolOp s op) := by
  obtain ⟨hnd, hlt⟩ := h
  cases op with
  | acquire =>
    show poolWF (BasicStream._next_read_buffer s).1
    cases hidle : s.idle_read_buffers with
    | nil =>
      rw [next_read_buffer_nil s hidle]
      unfold poolWF poolIds at *
      rw [hidle] at hnd hlt
      simp only [List.nil_append, List.map_append, List.map_cons, List.map_nil] at *
      constructor
      · refine (List.nodup_append).2 ⟨hnd, List.nodup_singleton _, ?_⟩
        intro i hi hi2
        simp only [List.mem_singleton] at hi2
        subst hi2
        exact absurd (hlt _ hi) (lt_irrefl _)
      · intro i hi
        simp only [List.mem_append, List.mem_singleton] at hi
        cases hi with
        | inl hi => exact Nat.lt_succ_of_lt (hlt _ hi)
        | inr hi => simp [hi]
    | cons b rest =>
      rw [next_read_buffer_cons s b rest hidle]
      unfold poolWF poolIds at *
      rw [hidle] at hnd hlt
      have hp0 : (rest ++ (s.active_read_buffers ++ [b])).Perm
          ((b :: rest) ++ s.active_read_buffers) := by
        have h1 : rest ++ (s.active_read_buffers ++ [b])
            = (rest ++ s.active_read_buffers) ++ [b] :=
          (List.append_assoc rest s.active_read_buffers [b]).symm
        rw [h1]
        exact (List.perm_append_singleton b (rest ++ s.active_read_buffers)).trans
          (List.Perm.refl _)
      have hperm := hp0.map fun x => x.id
      constructor
      · exact hperm.symm.nodup hnd
      · intro i hi
        exact hlt i (hperm.mem_iff.mp hi)
  | release base =>
    show poolWF (BasicStream._release_read_buffer s base)
    cases hscan : BasicStream.releaseScan base s.active_read_buffers with
    | none =>
      rw [BasicStream._release_read_buffer, hscan]
      exact ⟨hnd, hlt⟩
    | some p =>
      obtain ⟨restActive, b⟩ := p
      rw [release_match s base restActive b hscan]
      obtain ⟨hperm0, _⟩ := releaseScan_perm base _ _ _ hscan
      unfold poolWF poolIds at *
      have hp0 : ((s.idle_read_buffers ++ [b]) ++ restActive).Perm
          (s.idle_read_buffers ++ s.active_read_buffers) := by
        have h1 : (s.idle_read_buffers ++ [b]) ++ restActive
            = s.idle_read_buffers ++ (b :: restActive) := by
          rw [List.append_assoc]
          rfl
        rw [h1]
        exact List.Perm.append_left _ hperm0.symm
      have hperm := hp0.map fun x => x.id
      constructor
      · exact hperm.symm.nodup hnd
      · intro i hi
        exact hlt i (hperm.mem_iff.mp hi)

/-- Any sequence of pool operations preserves pool well-formedness. -/
theorem poolWF_runPoolOps (ops : List PoolOp) (s : StreamState) (h : poolWF s) :
    poolWF (runPoolOps s ops) := by
  induction ops generalizing s with
  | nil => exact h
  | cons op rest ih => exact ih _ (poolWF_applyPoolOp s op h)

/-- Delivering `UV_EOF` to the data callback is exactly the internal stop. -/
theorem readDataCallback_eof (s : StreamState) :
    BasicStream.readDataCallback BasicStream.UV_EOF s = BasicStream._stop_read s := by
  simp [BasicStream.readDataCallback]

/-- Finalizing a batch whose promise is pending resolves it with the
accumulated count, resets it and zeroes the counter. -/
theorem stop_read_final (s : StreamState) (hp : s.read_promise = .pending) :
    BasicStream._stop_read s =
      { s with
        read_promise := .pending
        read_count := 0
        read_resolutions := s.read_resolutions ++ [s.read_count] } := by
  unfold BasicStream._stop_read
  rw [hp]
  simp [Promise.resolve, Promise.reset]

/-- A non-negative `uv_read_stop` status makes `stop_read` clear the
callback and finalize the batch. -/
theorem stop_read_success (res : Int) (s : StreamState) (h : 0 ≤ res) :
    BasicStream.stop_read res s =
      (BasicStream._stop_read { s with read_callback := false }, none) := by
  unfold BasicStream.stop_read
  rw [if_neg (by omega)]

/-- A full read batch ending in EOF: positive chunks accumulate, EOF
resolves the promise with their sum, and the state is ready for a fresh
batch. -/
theorem read_batch_eof (s : StreamState) (sizes : List Int)
    (hp : s.read_promise = .pending) (hc : s.read_count = 0)
    (hpos : ∀ x ∈ sizes, 0 < x) (hbound : sizes.sum < 2 ^ 64) :
    BasicStream.readDataCallback BasicStream.UV_EOF
        (BasicStream.runDataCallbacks s sizes) =
      { s with
        read_promise := .pending
        read_count := 0
        read_resolutions := s.read_resolutions ++ [sizes.sum.toNat]
        chunks_delivered := s.chunks_delivered ++ sizes } := by
  have hb1 : (s.read_count : Int) + sizes.sum < 2 ^ 64 := by
    rw [hc]
    simpa using hbound
  rw [runDataCallbacks_accum sizes s hpos hb1, readDataCallback_eof,
    stop_read_final _ (by exact hp)]
  simp [hc]

/-- A full read batch ending in a successful `stop_read`: like EOF, but the
per-chunk callback is also cleared. -/
theorem read_batch_stop (s : StreamState) (sizes : List Int) (res : Int)
    (hres : 0 ≤ res)
    (hp : s.read_promise = .pending) (hc : s.read_count = 0)
    (hpos : ∀ x ∈ sizes, 0 < x) (hbound : sizes.sum < 2 ^ 64) :
    (BasicStream.stop_read res (BasicStream.runDataCallbacks s sizes)).1 =
      { s with
        read_callback := false
        read_promise := .pending
        read_count := 0
        read_resolutions := s.read_resolutions ++ [sizes.sum.toNat]
        chunks_delivered := s.chunks_delivered ++ sizes } := by
  have hb1 : (s.read_count : Int) + sizes.sum < 2 ^ 64 := by
    rw [hc]
    simpa using hbound
  rw [runDataCallbacks_accum sizes s hpos hb1, stop_read_success res _ hres,
    stop_read_final _ (by exact hp)]
  simp [hc]

/-! ## Claim theorems -/

/-- Claim C1: for a batch of data-ready invocations with positive sizes
`s1, ..., sk` followed by read termination (EOF delivered to the data
callback, or a successful `stop_read`), the read Future resolves with
exactly `s1 + ... + sk`, `read_count` is zero immediately after that
resolution, and a subsequently started batch accumulates its own total
independently of the prior batch's.  (The machine bound `sum < 2 ^ 64`
reflects the `std::size_t` counter.) -/
theorem read_accumulation_and_restart (s : StreamState)
    (sizes sizes2 : List Int) (res : Int)
    (hp : s.read_promise = .pending) (hc : s.read_count = 0)
    (hpos : ∀ x ∈ sizes, 0 < x) (hbound : sizes.sum < 2 ^ 64)
    (hpos2 : ∀ x ∈ sizes2, 0 < x) (hbound2 : sizes2.sum < 2 ^ 64)
    (hres : 0 ≤ res) :
    ((BasicStream.readDataCallback BasicStream.UV_EOF
        (BasicStream.runDataCallbacks s sizes)).read_resolutions
        = s.read_resolutions ++ [sizes.sum.toNat] ∧
      (BasicStream.readDataCallback BasicStream.UV_EOF
        (BasicStream.runDataCallbacks s sizes)).read_count = 0) ∧
    ((BasicStream.stop_read res
        (BasicStream.runDataCallbacks s sizes)).1.read_resolutions
        = s.read_resolutions ++ [sizes.sum.toNat] ∧
      (BasicStream.stop_read res
        (BasicStream.runDataCallbacks s sizes)).1.read_count = 0) ∧
    (BasicStream.readDataCallback BasicStream.UV_EOF
        (BasicStream.runDataCallbacks
          (BasicStream.readDataCallback BasicStream.UV_EOF
            (BasicStream.runDataCallbacks s sizes)) sizes2)).read_resolutions
      = s.read_resolutions ++ [sizes.sum.toNat] ++ [sizes2.sum.toNat] := by
  have h1 := read_batch_eof s sizes hp hc hpos hbound
  have h2 := read_batch_stop s sizes res hres hp hc hpos hbound
  have h3 := read_batch_eof (BasicStream.readDataCallback BasicStream.UV_EOF
      (BasicStream.runDataCallbacks s sizes)) sizes2
      (by rw [h1]) (by rw [h1]) hpos2 hbound2
  refine ⟨⟨?_, ?_⟩, ⟨?_, ?_⟩, ?_⟩
  · rw [h1]
  · rw [h1]
  · rw [h2]
  · rw [h2]
  · rw [h3, h1]

/-- Witness for C1 at a concrete input: batch `[3, 5, 9]` then EOF (and,
alternatively, `stop_read` with status `0`) resolves with `17`; a second
batch `[4]` resolves with `4`. -/
theorem read_accumulation_and_restart_witness :
    let s : StreamState :=
      { read_count := 0, read_callback := true, read_promise := .pending,
        idle_read_buffers := [], active_read_buffers := [],
        next_buffer_id := 0, read_resolutions := [], chunks_delivered := [] }
    ((BasicStream.readDataCallback BasicStream.UV_EOF
        (BasicStream.runDataCallbacks s [3, 5, 9])).read_resolutions
        = [] ++ [(17 : Nat)] ∧
      (BasicStream.readDataCallback BasicStream.UV_EOF
        (BasicStream.runDataCallbacks s [3, 5, 9])).read_count = 0) ∧
    ((BasicStream.stop_read 0
        (BasicStream.runDataCallbacks s [3, 5, 9])).1.read_resolutions
        = [] ++ [(17 : Nat)] ∧
      (BasicStream.stop_read 0
        (BasicStream.runDataCallbacks s [3, 5, 9])).1.read_count = 0) ∧
    (BasicStream.readDataCallback BasicStream.UV_EOF
        (BasicStream.runDataCallbacks
          (BasicStream.readDataCallback BasicStream.UV_EOF
            (BasicStream.runDataCallbacks s [3, 5, 9])) [4])).read_resolutions
      = [] ++ [(17 : Nat)] ++ [(4 : Nat)] := by
  have h := read_accumulation_and_restart
    { read_count := 0, read_callback := true, read_promise := .pending,
      idle_read_buffers := [], active_read_buffers := [],
      next_buffer_id := 0, read_resolutions := [], chunks_delivered := [] }
    [3, 5, 9] [4] 0 rfl rfl (by decide) (by decide) (by decide) (by decide)
    (by decide)
  simpa using h

/-- Claim C2: under any sequence of acquire (`_next_read_buffer`) and
release (`_release_read_buffer`) operations, every Buffer stays in exactly
one of the two collections {idle, active} (no address ever occurs twice
across them), and a release whose address matches no active buffer moves
nothing: the state is left completely unchanged. -/
theorem buffer_pool_conservation (s : StreamState) (ops : List PoolOp)
    (base : Nat) (hwf : poolWF s)
    (hbase : base ∉ s.active_read_buffers.map fun b => b.id) :
    poolWF (runPoolOps s ops) ∧
      BasicStream._release_read_buffer s base = s :=
  ⟨poolWF_runPoolOps ops s hwf, release_no_match s base hbase⟩

/-- Witness for C2 at a concrete input: two acquires, a matched release and
an unmatched release starting from an empty pool keep it well-formed, and
releasing the unused address `99` is the identity. -/
theorem buffer_pool_conservation_witness :
    let s : StreamState :=
      { read_count := 0, read_callback := false, read_promise := .pending,
        idle_read_buffers := [], active_read_buffers := [],
        next_buffer_id := 0, read_resolutions := [], chunks_delivered := [] }
    poolWF (runPoolOps s
        [.acquire, .acquire, .release 0, .release 7, .acquire]) ∧
      BasicStream._release_read_buffer s 99 = s := by
  exact buffer_pool_conservation _
    [.acquire, .acquire, .release 0, .release 7, .acquire] 99
    (by decide) (by decide)

/-- Claim C7: from an empty pool, two acquires yield two distinct freshly
allocated 1024-byte buffers (both active, idle empty); releasing the first
buffer's address moves exactly it to idle; a third acquire returns that
same buffer again without a fresh allocation. -/
theorem pool_reuse_scenario :
    let s0 : StreamState :=
      { read_count := 0, read_callback := false, read_promise := .pending,
        idle_read_buffers := [], active_read_buffers := [],
        next_buffer_id := 0, read_resolutions := [], chunks_delivered := [] }
    let a1 := BasicStream._next_read_buffer s0
    let a2 := BasicStream._next_read_buffer a1.1
    let s3 := BasicStream._release_read_buffer a2.1 a1.2.id
    let a4 := BasicStream._next_read_buffer s3
    a1.2 ≠ a2.2 ∧ a1.2.size = 1024 ∧ a2.2.size = 1024 ∧
      a2.1.active_read_buffers = [a1.2, a2.2] ∧
      a2.1.idle_read_buffers = [] ∧
      s3.idle_read_buffers = [a1.2] ∧ s3.active_read_buffers = [a2.2] ∧
      a4.2 = a1.2 ∧ a4.1.next_buffer_id = s3.next_buffer_id := by
  decide

/-- Claim C3 counterexample: a negative non-EOF size (here `-1`, delivered
with the promise pending and the counter at zero) does NOT stop the read or
finalize the batch — the promise stays pending, no resolution is recorded,
and the counter wraps to `2 ^ 64 - 1` — refuting "it stops the read
mechanism and finalizes the read batch". -/
theorem negative_size_claim_counterexample :
    let s : StreamState :=
      { read_count := 0, read_callback := true, read_promise := .pending,
        idle_read_buffers := [], active_read_buffers := [],
        next_buffer_id := 0, read_resolutions := [], chunks_delivered := [] }
    let r := BasicStream.readDataCallback (-1) s
    r.read_promise = .pending ∧ r.read_resolutions = [] ∧
      r.read_count = 2 ^ 64 - 1 ∧ r.chunks_delivered = [-1] := by
  decide

/-- Claim C3 as amended: a negative size that is not `UV_EOF` is NOT
treated as EOF — it takes the data path, adding the size to `read_count`
with `std::size_t` wraparound and invoking `read_callback` with the
negative size, leaving the read promise untouched (in particular never
rejected); only `UV_EOF` itself stops and finalizes. -/
theorem negative_size_data_path (s : StreamState) (size : Int)
    (hneg : size < 0) (hne : size ≠ BasicStream.UV_EOF) :
    BasicStream.readDataCallback size s =
      { s with
        read_count := (((s.read_count : Int) + size) % (2 ^ 64)).toNat
        chunks_delivered := s.chunks_delivered ++ [size] } ∧
      (BasicStream.readDataCallback size s).read_promise = s.read_promise ∧
      ∀ e : StreamError, s.read_promise ≠ .rejected e →
        (BasicStream.readDataCallback size s).read_promise ≠ .rejected e := by
  have h : BasicStream.readDataCallback size s =
      { s with
        read_count := (((s.read_count : Int) + size) % (2 ^ 64)).toNat
        chunks_delivered := s.chunks_delivered ++ [size] } := by
    unfold BasicStream.readDataCallback
    rw [if_neg hne]
  refine ⟨h, by rw [h], fun e he => by rw [h]; exact he⟩

/-- Witness for the amended C3 at size `-7`: the data path is taken and the
promise is not rejected. -/
theorem negative_size_data_path_witness :
    let s : StreamState :=
      { read_count := 5, read_callback := true, read_promise := .pending,
        idle_read_buffers := [], active_read_buffers := [],
        next_buffer_id := 0, read_resolutions := [], chunks_delivered := [] }
    BasicStream.readDataCallback (-7) s =
      { s with
        read_count := (((s.read_count : Int) + (-7)) % (2 ^ 64)).toNat
        chunks_delivered := s.chunks_delivered ++ [-7] } ∧
      (BasicStream.readDataCallback (-7) s).read_promise = s.read_promise ∧
      ∀ e : StreamError, s.read_promise ≠ .rejected e →
        (BasicStream.readDataCallback (-7) s).read_promise ≠ .rejected e :=
  negative_size_data_path _ (-7) (by decide) (by decide)

/-- Claim C4 counterexample: delivering EOF to the data-ready callback with
a registered `read_callback` finalizes the batch but leaves `read_callback`
set — refuting "after EOF the stream's read_callback is cleared". -/
theorem eof_callback_counterexample :
    let s : StreamState :=
      { read_count := 3, read_callback := true, read_promise := .pending,
        idle_read_buffers := [], active_read_buffers := [],
        next_buffer_id := 0, read_resolutions := [], chunks_delivered := [] }
    (BasicStream.readDataCallback BasicStream.UV_EOF s).read_callback = true ∧
      (BasicStream.readDataCallback BasicStream.UV_EOF s).read_resolutions
        = [3] := by
  decide

/-- Claim C4 as amended: `read_callback` is cleared by `stop_read` (on both
its success and failure paths) and by a failed `_read` start, but the EOF
path of the data-ready callback finalizes the batch WITHOUT clearing
`read_callback`. -/
theorem callback_clearing_on_stop (s : StreamState) (res : Int) :
    (BasicStream.stop_read res s).1.read_callback = false ∧
      (res < 0 →
        (BasicStream._read res s).1.read_callback = false) ∧
      (BasicStream.readDataCallback BasicStream.UV_EOF s).read_callback
        = s.read_callback := by
  refine ⟨?_, ?_, ?_⟩
  · unfold BasicStream.stop_read
    by_cases h : res < 0
    · rw [if_pos h]
    · rw [if_neg h]
      rfl
  · intro h
    unfold BasicStream._read
    rw [if_pos h]
  · rw [readDataCallback_eof]
    rfl

/-- Witness for the amended C4 at a concrete state and statuses. -/
theorem callback_clearing_on_stop_witness :
    let s : StreamState :=
      { read_count := 3, read_callback := true, read_promise := .pending,
        idle_read_buffers := [], active_read_buffers := [],
        next_buffer_id := 0, read_resolutions := [], chunks_delivered := [] }
    (BasicStream.stop_read (-9) s).1.read_callback = false ∧
      ((-9 : Int) < 0 →
        (BasicStream._read (-9) s).1.read_callback = false) ∧
      (BasicStream.readDataCallback BasicStream.UV_EOF s).read_callback
        = s.read_callback :=
  callback_clearing_on_stop _ (-9)

/-- Claim C5: when `uv_write` accepts the submission (non-negative status)
and the completion callback later reports status 0, the Future returned by
`write` — the request promise's future with the pass-through continuation
chained on — resolves with exactly the buffer's size at call time. -/
theorem write_round_trip (n : Nat) (res : Int) (hres : 0 ≤ res) :
    ∃ req : BasicStream.WriteRequest,
      BasicStream.write n res = .ok req ∧
        req.request_size = n ∧
        BasicStream.writeFuture (BasicStream.writeCallback req 0)
          = .resolved n := by
  refine ⟨{ request_size := n, promise := .pending }, ?_, rfl, ?_⟩
  · unfold BasicStream.write
    rw [if_neg (by omega)]
  · rfl

/-- Witness for C5 with a 42-byte buffer and submission status 0. -/
theorem write_round_trip_witness :
    ∃ req : BasicStream.WriteRequest,
      BasicStream.write 42 0 = .ok req ∧
        req.request_size = 42 ∧
        BasicStream.writeFuture (BasicStream.writeCallback req 0)
          = .resolved 42 :=
  write_round_trip 42 0 (by decide)

/-- Claim C6: a negative `uv_write` submission status makes `write` raise a
`StreamError` before any Future exists; a negative completion status on a
pending request rejects the returned Future with a `StreamError` built from
that status. -/
theorem write_failure_paths (n : Nat) (res status : Int)
    (req : BasicStream.WriteRequest)
    (hres : res < 0) (hstatus : status < 0)
    (hreq : req.promise = .pending) :
    BasicStream.write n res = .error ⟨res⟩ ∧
      BasicStream.writeFuture (BasicStream.writeCallback req status)
        = .rejected ⟨status⟩ := by
  constructor
  · unfold BasicStream.write
    rw [if_pos hres]
  · unfold BasicStream.writeFuture BasicStream.writeCallback
    rw [if_pos hstatus, hreq]
    rfl

/-- Witness for C6: submission status `-5` raises; completion status `-3`
rejects the pending request's future. -/
theorem write_failure_paths_witness :
    BasicStream.write 8 (-5) = .error ⟨-5⟩ ∧
      BasicStream.writeFuture
          (BasicStream.writeCallback
            { request_size := 8, promise := .pending } (-3))
        = .rejected ⟨-3⟩ :=
  write_failure_paths 8 (-5) (-3)
    { request_size := 8, promise := .pending }
    (by decide) (by decide) rfl

/-- Claim C8: `_read` with a negative `uv_read_start` status fails
immediately — it clears `read_callback` and raises a `StreamError` (the
returned state shows the callback already cleared at throw time); with a
non-negative status it leaves the state untouched and returns the
`StreamState`'s read promise future. -/
theorem read_start_contract (s : StreamState) (res : Int) :
    (res < 0 →
      BasicStream._read res s =
        ({ s with read_callback := false }, .error ⟨res⟩)) ∧
      (0 ≤ res →
        BasicStream._read res s = (s, .ok s.read_promise)) := by
  constructor
  · intro h
    unfold BasicStream._read
    rw [if_pos h]
  · intro h
    unfold BasicStream._read
    rw [if_neg (by omega)]

/-- Witness for C8 at statuses `-4` and `0` on a concrete state. -/
theorem read_start_contract_witness :
    let s : StreamState :=
      { read_count := 0, read_callback := true, read_promise := .pending,
        idle_read_buffers := [], active_read_buffers := [],
        next_buffer_id := 0, read_resolutions := [], chunks_delivered := [] }
    (((-4 : Int) < 0 →
      BasicStream._read (-4) s =
        ({ s with read_callback := false }, .error ⟨-4⟩)) ∧
      ((0 : Int) ≤ (-4 : Int) →
        BasicStream._read (-4) s = (s, .ok s.read_promise))) ∧
    (((0 : Int) < 0 →
      BasicStream._read 0 s =
        ({ s with read_callback := false }, .error ⟨0⟩)) ∧
      ((0 : Int) ≤ (0 : Int) →
        BasicStream._read 0 s = (s, .ok s.read_promise))) :=
  ⟨read_start_contract _ (-4), read_start_contract _ 0⟩

/-- Claim C9: `stop_read` (whose `res` argument is the status of the
propagated `uv_read_stop` call) always clears `read_callback` — also on
the failure path, where a negative status additionally raises a
`StreamError` built from that status. -/
theorem stop_read_contract (s : StreamState) (res : Int) :
    (BasicStream.stop_read res s).1.read_callback = false ∧
      (res < 0 →
        (BasicStream.stop_read res s).2 = some ⟨res⟩) := by
  constructor
  · unfold BasicStream.stop_read
    by_cases h : res < 0
    · rw [if_pos h]
    · rw [if_neg h]
      rfl
  · intro h
    unfold BasicStream.stop_read
    rw [if_pos h]

/-- Witness for C9 at statuses `-2` and `0` on a concrete state. -/
theorem stop_read_contract_witness :
    let s : StreamState :=
      { read_count := 6, read_callback := true, read_promise := .pending,
        idle_read_buffers := [], active_read_buffers := [],
        next_buffer_id := 0, read_resolutions := [], chunks_delivered := [] }
    ((BasicStream.stop_read (-2) s).1.read_callback = false ∧
      ((-2 : Int) < 0 →
        (BasicStream.stop_read (-2) s).2 = some ⟨-2⟩)) ∧
    ((BasicStream.stop_read 0 s).1.read_callback = false ∧
      ((0 : Int) < 0 →
        (BasicStream.stop_read 0 s).2 = some ⟨0⟩)) :=
  ⟨stop_read_contract _ (-2), stop_read_contract _ 0⟩

/-- Claim C10: when `stop_read` fails (negative `uv_read_stop` status), the
only `StreamState` field modified is `read_callback` (cleared): the
promise keeps its prior state and no resolution is delivered, `read_count`
and both buffer collections are unchanged — batch finalization happens
only on the success path. -/
theorem stop_read_failure_frame (s : StreamState) (res : Int) (h : res < 0) :
    BasicStream.stop_read res s =
      ({ s with read_callback := false }, some ⟨res⟩) ∧
      (BasicStream.stop_read res s).1.read_promise = s.read_promise ∧
      (BasicStream.stop_read res s).1.read_count = s.read_count ∧
      (BasicStream.stop_read res s).1.read_resolutions = s.read_resolutions ∧
      (BasicStream.stop_read res s).1.idle_read_buffers
        = s.idle_read_buffers ∧
      (BasicStream.stop_read res s).1.active_read_buffers
        = s.active_read_buffers := by
  have he : BasicStream.stop_read res s =
      ({ s with read_callback := false }, some ⟨res⟩) := by
    unfold BasicStream.stop_read
    rw [if_pos h]
  exact ⟨he, by rw [he], by rw [he], by rw [he], by rw [he], by rw [he]⟩

/-- Witness for C10 at status `-11` on a concrete state with a non-trivial
pool and counter. -/
theorem stop_read_failure_frame_witness :
    let s : StreamState :=
      { read_count := 9, read_callback := true, read_promise := .pending,
        idle_read_buffers := [{ id := 0, size := 1024 }],
        active_read_buffers := [{ id := 1, size := 1024 }],
        next_buffer_id := 2, read_resolutions := [4], chunks_delivered := [4] }
    BasicStream.stop_read (-11) s =
      ({ s with read_callback := false }, some ⟨-11⟩) ∧
      (BasicStream.stop_read (-11) s).1.read_promise = s.read_promise ∧
      (BasicStream.stop_read (-11) s).1.read_count = s.read_count ∧
      (BasicStream.stop_read (-11) s).1.read_resolutions
        = s.read_resolutions ∧
      (BasicStream.stop_read (-11) s).1.idle_read_buffers
        = s.idle_read_buffers ∧
      (BasicStream.stop_read (-11) s).1.active_read_buffers
        = s.active_read_buffers :=
  stop_read_failure_frame _ (-11) (by decide)
